import Mathlib

/-!
# Verification of the seatmap layout engine

A shallow embedding, in Lean 4, of the layout-mutation engine of the
`SeatingEditor` component (file `src/components/SeatingEditor.tsx`).

Conventions of the embedding:

* JavaScript numbers are modelled as rationals (`ℚ`): every arithmetic
  operation performed by the engine (addition, subtraction, multiplication,
  division by positive counts, `Math.max`) is exact on the inputs that
  matter here, so the rational model computes the same values the source
  computes, and an equality proved over `ℚ` implies agreement up to any
  floating-point tolerance.
* `Math.cos`/`Math.sin` of the section's rotation angle are abstracted as a
  pair of parameters `c s : ℚ` constrained by `c ^ 2 + s ^ 2 = 1` where a
  theorem needs the trigonometric identity; the source computes
  `angle = rotation * π / 180`, `c = cos angle`, `s = sin angle`, and
  `cos (-angle) = c`, `sin (-angle) = -s` are applied where the source
  calls the trig functions on the negated angle.
* Effects are made explicit: `Date.now()` and `Math.random()` results are
  passed as parameters to the commands that consume them, in source order;
  the `onLayoutChange` observer notification is modelled as the `Bool`
  component of each command's `Layout × Bool` result (`true` exactly when
  the source invokes `onLayoutChange`); a JavaScript `TypeError` (reading a
  property of `undefined`) is modelled as `none` in an `Option` result.
* React state updates (`setLayout`) are modelled by returning the new
  layout value.  Where the source writes through a shallow-copied object
  (`{ ...layout }`) and mutates shared structure, the value-level model
  below describes the layout value the component renders next; a separate
  heap-level model (`heapDragEnd` at the end of the definitions) captures
  the aliasing between successive snapshots.
-/

/-- `Seat` record, from the `Seat` interface of the source. -/
structure Seat where
  id : String
  x : ℚ
  y : ℚ
  row : String
  number : ℕ
  sectionId : String
  seatSize : ℚ
deriving DecidableEq, Repr

/-- Section type tag, from `type: 'section' | 'label'`. -/
inductive SectionType where
  | section
  | label
deriving DecidableEq, Repr

/-- `Section` record, from the `Section` interface of the source. -/
structure Section where
  id : String
  name : String
  color : String
  x : ℚ
  y : ℚ
  width : ℚ
  height : ℚ
  rotation : ℚ
  seats : List Seat
  type : SectionType
deriving DecidableEq, Repr

/-- `SeatingLayout` record, from the `SeatingLayout` interface of the source. -/
structure Layout where
  sections : List Section
  scale : ℚ
deriving DecidableEq, Repr

/-- First section of the built-in default layout. -/
def sectionA : Section :=
  { id := "section-1", name := "Section A", color := "#ff6b6b",
    x := 50, y := 200, width := 150, height := 120, rotation := 0,
    seats := [], type := .section }

/-- Second section of the built-in default layout. -/
def sectionB : Section :=
  { id := "section-2", name := "Section B", color := "#4ecdc4",
    x := 250, y := 200, width := 150, height := 120, rotation := 0,
    seats := [], type := .section }

/-- The built-in default layout (the `useState` initialiser of the
component): two empty `'section'` sections and scale 1. -/
def defaultLayout : Layout :=
  { sections := [sectionA, sectionB], scale := 1 }

/-! ## Geometry

`localToWorld` is read off the seat-rendering code (the body of
`section.seats.map` in the render function): `seatX = section.x + seat.x`,
relative position from the section center, rotation by `section.rotation`
(through `c = cos angle`, `s = sin angle`), then translation back by the
center.

`worldToLocal` is read off `handleSeatDragEnd`: subtract the center,
rotate by `-rotation` (the source sets `angle = -(rotation * π/180)`, so
its `cos angle` is `c` and its `sin angle` is `-s`), then add back
`width/2` and `height/2`. -/

/-- World position at which a stored seat-local point is rendered
(seat-rendering code of the component).  `c`, `s` stand for the cosine and
sine of the section's rotation angle. -/
def localToWorld (sec : Section) (c s : ℚ) (p : ℚ × ℚ) : ℚ × ℚ :=
  let centerX := sec.x + sec.width / 2
  let centerY := sec.y + sec.height / 2
  let seatX := sec.x + p.1
  let seatY := sec.y + p.2
  let relativeX := seatX - centerX
  let relativeY := seatY - centerY
  let rotatedX := relativeX * c - relativeY * s
  let rotatedY := relativeX * s + relativeY * c
  (centerX + rotatedX, centerY + rotatedY)

/-- Stored seat-local position computed from a dragged world position
(`handleSeatDragEnd`).  `c`, `s` stand for the cosine and sine of the
section's rotation angle; the source rotates by the negated angle, whose
cosine is `c` and whose sine is `-s`. -/
def worldToLocal (sec : Section) (c s : ℚ) (q : ℚ × ℚ) : ℚ × ℚ :=
  let centerX := sec.x + sec.width / 2
  let centerY := sec.y + sec.height / 2
  let relativeX := q.1 - centerX
  let relativeY := q.2 - centerY
  let originalX := relativeX * c - relativeY * (-s)
  let originalY := relativeX * (-s) + relativeY * c
  (originalX + sec.width / 2, originalY + sec.height / 2)

/-- C1: for every section (any width, height, rotation) and every point,
converting a seat's stored local position to its rendered world position
and converting back through the drag handler's inverse yields the original
point.  Over the rational model the round trip is an exact identity
(given the Pythagorean identity for the rotation's cosine and sine), which
in particular implies agreement within the 1e-9 floating-point tolerance
stated by the specification. -/
theorem worldToLocal_localToWorld (sec : Section) (c s : ℚ)
    (h : c ^ 2 + s ^ 2 = 1) (p : ℚ × ℚ) :
    worldToLocal sec c s (localToWorld sec c s p) = p := by
  obtain ⟨px, py⟩ := p
  simp only [localToWorld, worldToLocal, Prod.mk.injEq]
  constructor
  · linear_combination (px - sec.width / 2) * h
  · linear_combination (py - sec.height / 2) * h

/-- A concrete rotated section used to instantiate the round-trip theorem. -/
def rotatedSection : Section :=
  { id := "section-1", name := "Section A", color := "#ff6b6b",
    x := 50, y := 200, width := 150, height := 120, rotation := 53,
    seats := [], type := .section }

/-- Witness for C1: the round trip at a concrete rotated section
(cosine 3/5, sine 4/5) and the concrete point (7, 11). -/
theorem worldToLocal_localToWorld_witness :
    ((3 / 5 : ℚ) ^ 2 + (4 / 5 : ℚ) ^ 2 = 1) ∧
      worldToLocal rotatedSection (3 / 5) (4 / 5)
        (localToWorld rotatedSection (3 / 5) (4 / 5) (7, 11)) = (7, 11) :=
  ⟨by norm_num,
   worldToLocal_localToWorld rotatedSection (3 / 5) (4 / 5) (by norm_num) (7, 11)⟩

/-! ## Helpers for the first-match update pattern

Every mutating handler in the source locates its target with
`findIndex(s => s.id === id)` and, when the index is not `-1`, updates the
element at that index.  Value-wise this is: update the first element
satisfying the predicate, leave everything else alone. -/

/-- Update the first element satisfying `p`; identity when none does.
This is the value-level meaning of `findIndex` followed by an update of
the element at the found index. -/
def modifyFirst (p : α → Bool) (f : α → α) : List α → List α
  | [] => []
  | x :: xs => if p x then f x :: xs else x :: modifyFirst p f xs

theorem modifyFirst_of_find?_eq_none {p : α → Bool} {f : α → α}
    {xs : List α} (h : xs.find? p = none) : modifyFirst p f xs = xs := by
  induction xs with
  | nil => rfl
  | cons x xs ih =>
    rw [List.find?_cons] at h
    cases hx : p x with
    | true => rw [hx] at h; exact absurd h (by simp)
    | false =>
      rw [hx] at h
      simp [modifyFirst, hx, ih h]

theorem mem_modifyFirst {p : α → Bool} {f : α → α} {xs : List α} {a : α}
    (h : a ∈ modifyFirst p f xs) :
    a ∈ xs ∨ ∃ b, b ∈ xs ∧ p b = true ∧ a = f b := by
  induction xs with
  | nil => exact absurd h (List.not_mem_nil a)
  | cons x xs ih =>
    by_cases hx : p x
    · simp only [modifyFirst, hx, if_pos] at h
      rcases List.mem_cons.1 h with h | h
      · exact Or.inr ⟨x, List.mem_cons_self x xs, hx, h⟩
      · exact Or.inl (List.mem_cons_of_mem x h)
    · simp only [modifyFirst, hx, if_neg, Bool.false_eq_true] at h
      rcases List.mem_cons.1 h with h | h
      · exact Or.inl (h ▸ List.mem_cons_self x xs)
      · rcases ih h with h | ⟨b, hb, hpb, hab⟩
        · exact Or.inl (List.mem_cons_of_mem x h)
        · exact Or.inr ⟨b, List.mem_cons_of_mem x hb, hpb, hab⟩

theorem find?_eq_some_split {p : α → Bool} {xs : List α} {a : α}
    (h : xs.find? p = some a) :
    ∃ pre post, xs = pre ++ a :: post ∧ (∀ x ∈ pre, p x = false) ∧ p a = true := by
  induction xs with
  | nil => exact absurd h (by simp)
  | cons x xs ih =>
    rw [List.find?_cons] at h
    cases hx : p x with
    | true =>
      rw [hx] at h
      refine ⟨[], xs, ?_, by simp, ?_⟩
      · simpa using (Option.some.injEq .. ▸ h : x = a) ▸ rfl
      · cases Option.some.inj h; exact hx
    | false =>
      rw [hx] at h
      obtain ⟨pre, post, hxs, hpre, hpa⟩ := ih h
      exact ⟨x :: pre, post, by rw [hxs]; rfl,
        fun y hy => (List.mem_cons.1 hy).elim (fun hyx => hyx ▸ hx) (hpre y), hpa⟩

theorem modifyFirst_append {p : α → Bool} {f : α → α} {pre post : List α} {a : α}
    (hpre : ∀ x ∈ pre, p x = false) (ha : p a = true) :
    modifyFirst p f (pre ++ a :: post) = pre ++ f a :: post := by
  induction pre with
  | nil => simp [modifyFirst, ha]
  | cons x pre ih =>
    have hx := hpre x (List.mem_cons_self x pre)
    simp [modifyFirst, hx, ih fun y hy => hpre y (List.mem_cons_of_mem x hy)]

/-! ## Grid-fill generation (`handleFillWithSeats`) -/

/-- Row label of row `r`: `String.fromCharCode(65 + row)` in the source. -/
def rowLabel (r : ℕ) : String :=
  (Char.ofNat (65 + r)).toString

/-- The seat record built in the body of the double loop of
`handleFillWithSeats` for row `r` and column `c`. -/
def gridSeat (sectionName sectionId : String) (seatSize spacingX spacingY : ℚ)
    (r c : ℕ) : Seat :=
  { id := sectionName ++ "-" ++ rowLabel r ++ "-" ++ toString (c + 1),
    x := spacingX + (c : ℚ) * (seatSize * 2 + spacingX),
    y := spacingY + (r : ℚ) * (seatSize * 2 + spacingY),
    row := rowLabel r,
    number := c + 1,
    sectionId := sectionId,
    seatSize := seatSize }

/-- The `newSeats` array accumulated by the row-major double loop of
`handleFillWithSeats`. -/
def gridSeats (sectionName sectionId : String) (rows cols : ℕ)
    (seatSize spacingX spacingY : ℚ) : List Seat :=
  (List.range rows).flatMap fun r =>
    (List.range cols).map fun c =>
      gridSeat sectionName sectionId seatSize spacingX spacingY r c

/-- `handleFillWithSeats(sectionId, rows, cols, seatSize)`.  Mirrors the
source exactly, including the guard `spacingX < minPadding || spacingY <
minPadding` being evaluated on the already-clamped
`max(minPadding, raw)` values.  The `Bool` component records whether
`onLayoutChange` is invoked. -/
def handleFillWithSeats (l : Layout) (sectionId : String) (rows cols : ℕ)
    (seatSize : ℚ) : Layout × Bool :=
  match l.sections.find? (fun s => s.id == sectionId) with
  | none => (l, false)
  | some sec =>
    let minPadding : ℚ := 15
    let totalHorizontalSpaces : ℕ := cols + 1
    let totalVerticalSpaces : ℕ := rows + 1
    let spacingX := max minPadding
      ((sec.width - ((cols : ℚ) * seatSize * 2)) / (totalHorizontalSpaces : ℚ))
    let spacingY := max minPadding
      ((sec.height - ((rows : ℚ) * seatSize * 2)) / (totalVerticalSpaces : ℚ))
    if spacingX < minPadding ∨ spacingY < minPadding then
      (l, false)
    else
      let newSeats := gridSeats sec.name sectionId rows cols seatSize spacingX spacingY
      (⟨modifyFirst (fun s => s.id == sectionId)
          (fun s => { s with seats := newSeats }) l.sections, l.scale⟩, true)

/-! ## Individual seat addition (`handleSectionClick` with the add-seat tool)

The source positions the new seat at `Math.random() * (width - 20) + 10`,
`Math.random() * (height - 20) + 10`; the two `Math.random()` results are
the parameters `r1`, `r2`, and the three-character random id suffix is the
parameter `tok`. -/

def handleSectionClickAddSeat (l : Layout) (sectionId : String)
    (r1 r2 : ℚ) (tok : String) : Layout × Bool :=
  match l.sections.find? (fun s => s.id == sectionId) with
  | none => (l, false)
  | some sec =>
    if sec.type == .section then
      let newSeat : Seat :=
        { id := sec.name ++ "-" ++ tok,
          x := r1 * (sec.width - 20) + 10,
          y := r2 * (sec.height - 20) + 10,
          row := "A",
          number := sec.seats.length + 1,
          sectionId := sectionId,
          seatSize := 8 }
      (⟨modifyFirst (fun s => s.id == sectionId)
          (fun s => { s with seats := s.seats ++ [newSeat] }) l.sections, l.scale⟩, true)
    else
      (l, false)

/-! ## Section move and transform -/

/-- `handleDragEnd`: converts the dragged center-anchored position back to
a top-left position.  The source calls `setLayout`/`onLayoutChange`
unconditionally, even when `findIndex` returned `-1`. -/
def handleDragEnd (l : Layout) (id : String) (wx wy : ℚ) : Layout × Bool :=
  (⟨modifyFirst (fun s => s.id == id)
      (fun s => { s with x := wx - s.width / 2, y := wy - s.height / 2 }) l.sections,
    l.scale⟩, true)

/-- `handleTransformEnd`: `rawW`/`rawH` stand for `node.width() * scaleX` /
`node.height() * scaleY`; width and height are clamped to a minimum of 50.
The notification fires unconditionally, even when the selected id is not
found. -/
def handleTransformEnd (l : Layout) (selectedId : String)
    (nodeX nodeY rawW rawH rot : ℚ) : Layout × Bool :=
  (⟨modifyFirst (fun s => s.id == selectedId)
      (fun s => { s with
        x := nodeX - rawW / 2,
        y := nodeY - rawH / 2,
        width := max rawW 50,
        height := max rawH 50,
        rotation := rot }) l.sections,
    l.scale⟩, true)

/-! ## Seat drag (`handleSeatDragEnd`)

The source indexes `newLayout.sections[sectionIndex].seats[seatIndex]`
without checking the indices; when either `findIndex` returns `-1` this
throws a `TypeError`, modelled as `none`. -/

def handleSeatDragEnd (l : Layout) (sectionId seatId : String)
    (wx wy c s : ℚ) : Option (Layout × Bool) :=
  match l.sections.find? (fun sec => sec.id == sectionId) with
  | none => none
  | some sec =>
    match sec.seats.find? (fun st => st.id == seatId) with
    | none => none
    | some _ =>
      let p := worldToLocal sec c s (wx, wy)
      some (⟨modifyFirst (fun sec2 => sec2.id == sectionId)
          (fun sec2 => { sec2 with
            seats := modifyFirst (fun st => st.id == seatId)
              (fun st => { st with x := p.1, y := p.2 }) sec2.seats }) l.sections,
        l.scale⟩, true)

/-! ## Duplication (`handleDuplicateSection`)

The source evaluates `Date.now()` once for the new section's `id`, and
then, for every copied seat, evaluates `Date.now()` and `Math.random()`
for the seat's `id` and `Date.now()` a further time for the seat's
`sectionId`.  These effect results are supplied explicitly: `t0` is the
`Date.now()` used in the section's `id`, and `oracle i = (tI, r, tS)`
gives, for the `i`-th copied seat, the `Date.now()` and stringified
`Math.random()` of its `id` and the `Date.now()` of its `sectionId`.
`seatSize: seat.seatSize || 8` maps the JavaScript-falsy value `0`
to `8`. -/

def handleDuplicateSection (l : Layout) (sectionId : String) (t0 : ℕ)
    (oracle : ℕ → ℕ × String × ℕ) : Layout × Bool :=
  match l.sections.find? (fun s => s.id == sectionId) with
  | none => (l, false)
  | some sec =>
    let newSection : Section :=
      { sec with
        id := "section-" ++ toString t0,
        name := sec.name ++ " (Copy)",
        x := sec.x + 20,
        y := sec.y + 20,
        seats := sec.seats.enum.map fun iseat =>
          let tI := (oracle iseat.1).1
          let r := (oracle iseat.1).2.1
          let tS := (oracle iseat.1).2.2
          { iseat.2 with
            id := "seat-" ++ toString tI ++ "-" ++ r,
            sectionId := "section-" ++ toString tS,
            seatSize := if iseat.2.seatSize = 0 then 8 else iseat.2.seatSize } }
    (⟨l.sections ++ [newSection], l.scale⟩, true)

/-! ## Deletion and field updates -/

/-- Section deletion: the `onDelete` callback of the section context menu
(`findIndex` then `splice(sectionIndex, 1)`). -/
def handleDeleteSection (l : Layout) (id : String) : Layout × Bool :=
  match l.sections.findIdx? (fun s => s.id == id) with
  | none => (l, false)
  | some i => (⟨l.sections.eraseIdx i, l.scale⟩, true)

/-- Seat deletion: `handleSeatAction` with `action = 'delete'` (and,
identically, the `onDelete` callback of the seat context menu): the
section's seats are replaced by `seats.filter(s => s.id !== seatId)`.
`handleSeatAction` first looks the seat up and returns without notifying
when it is absent. -/
def handleSeatActionDelete (l : Layout) (sectionId seatId : String) :
    Layout × Bool :=
  match l.sections.find? (fun s => s.id == sectionId) with
  | none => (l, false)
  | some sec =>
    match sec.seats.find? (fun st => st.id == seatId) with
    | none => (l, false)
    | some _ =>
      (⟨modifyFirst (fun s => s.id == sectionId)
          (fun s => { s with seats := s.seats.filter fun st => !(st.id == seatId) })
          l.sections, l.scale⟩, true)

/-- `handleSectionNameChange`: renames a section; no-op without
notification when the id is not found. -/
def handleSectionNameChange (l : Layout) (sectionId newName : String) :
    Layout × Bool :=
  match l.sections.find? (fun s => s.id == sectionId) with
  | none => (l, false)
  | some _ =>
    (⟨modifyFirst (fun s => s.id == sectionId)
        (fun s => { s with name := newName }) l.sections, l.scale⟩, true)

/-- Recoloring: the `onConfirm` callback of the color-picker dialog. -/
def handleChangeColor (l : Layout) (sectionId color : String) :
    Layout × Bool :=
  match l.sections.find? (fun s => s.id == sectionId) with
  | none => (l, false)
  | some _ =>
    (⟨modifyFirst (fun s => s.id == sectionId)
        (fun s => { s with color := color }) l.sections, l.scale⟩, true)

/-- `handleSeatEdit`: renames a seat id (no collision check, per the
source); no-op without notification when section or seat is not found. -/
def handleSeatEdit (l : Layout) (sectionId seatId newId : String) :
    Layout × Bool :=
  match l.sections.find? (fun s => s.id == sectionId) with
  | none => (l, false)
  | some sec =>
    match sec.seats.find? (fun st => st.id == seatId) with
    | none => (l, false)
    | some _ =>
      (⟨modifyFirst (fun s => s.id == sectionId)
          (fun s => { s with
            seats := modifyFirst (fun st => st.id == seatId)
              (fun st => { st with id := newId }) s.seats }) l.sections,
        l.scale⟩, true)

/-! ## Section creation -/

/-- `addSection`: `now` is the `Date.now()` of the generated id, `color`
the generated `hsl(...)` string. -/
def addSection (l : Layout) (now : ℕ) (color : String) : Layout × Bool :=
  let newSection : Section :=
    { id := "section-" ++ toString now,
      name := "Section " ++ toString (l.sections.length + 1),
      color := color,
      x := 100 + (l.sections.length : ℚ) * 200,
      y := 300, width := 150, height := 120, rotation := 0,
      seats := [], type := .section }
  (⟨l.sections ++ [newSection], l.scale⟩, true)

/-- `addLabelSection`: `now` is the `Date.now()` of the generated id. -/
def addLabelSection (l : Layout) (now : ℕ) : Layout × Bool :=
  let newLabelSection : Section :=
    { id := "label-" ++ toString now,
      name := "Stage", color := "#2c3e50",
      x := 100, y := 50, width := 200, height := 100, rotation := 0,
      seats := [], type := .label }
  (⟨l.sections ++ [newLabelSection], l.scale⟩, true)

/-! ## The dialog-guarded fill path

The fill dialog can only be opened from the section context menu, whose
`onFillWithSeats` callback opens it only when the target section exists
and has `type === 'section'` (and the context-menu entry itself is only
rendered for that type).  This composes the guard with
`handleFillWithSeats`. -/

def fillViaContextMenu (l : Layout) (sectionId : String) (rows cols : ℕ)
    (seatSize : ℚ) : Layout × Bool :=
  match l.sections.find? (fun s => s.id == sectionId) with
  | some sec =>
    if sec.type == .section then
      handleFillWithSeats l sectionId rows cols seatSize
    else (l, false)
  | none => (l, false)

/-! ## The command surface

One constructor per inbound command of the engine.  Effect results
(`Date.now()`, `Math.random()`, the cosine/sine the drag handler computes
from the section's rotation) are carried by the constructor so that a
command applies as a pure function. -/

inductive Cmd where
  | addSection (now : ℕ) (color : String)
  | addLabelSection (now : ℕ)
  | addSeat (sectionId : String) (r1 r2 : ℚ) (tok : String)
  | fillWithSeats (sectionId : String) (rows cols : ℕ) (seatSize : ℚ)
  | duplicateSection (sectionId : String) (t0 : ℕ) (oracle : ℕ → ℕ × String × ℕ)
  | deleteSection (sectionId : String)
  | deleteSeat (sectionId seatId : String)
  | moveSection (sectionId : String) (wx wy : ℚ)
  | transformSection (sectionId : String) (nodeX nodeY rawW rawH rot : ℚ)
  | moveSeat (sectionId seatId : String) (wx wy c s : ℚ)
  | renameSection (sectionId newName : String)
  | recolorSection (sectionId color : String)
  | renameSeat (sectionId seatId newId : String)

/-- Apply one command: `some (newLayout, notified)`, or `none` when the
source throws (only `moveSeat` can). -/
def applyCmd : Cmd → Layout → Option (Layout × Bool)
  | .addSection now color, l => some (addSection l now color)
  | .addLabelSection now, l => some (addLabelSection l now)
  | .addSeat sid r1 r2 tok, l => some (handleSectionClickAddSeat l sid r1 r2 tok)
  | .fillWithSeats sid rows cols seatSize, l =>
      some (handleFillWithSeats l sid rows cols seatSize)
  | .duplicateSection sid t0 oracle, l => some (handleDuplicateSection l sid t0 oracle)
  | .deleteSection sid, l => some (handleDeleteSection l sid)
  | .deleteSeat sid stId, l => some (handleSeatActionDelete l sid stId)
  | .moveSection sid wx wy, l => some (handleDragEnd l sid wx wy)
  | .transformSection sid nx ny rw rh rot, l =>
      some (handleTransformEnd l sid nx ny rw rh rot)
  | .moveSeat sid stId wx wy c s, l => handleSeatDragEnd l sid stId wx wy c s
  | .renameSection sid newName, l => some (handleSectionNameChange l sid newName)
  | .recolorSection sid color, l => some (handleChangeColor l sid color)
  | .renameSeat sid stId newId, l => some (handleSeatEdit l sid stId newId)

/-- Apply a command sequence; `none` as soon as one command throws. -/
def applyCmds : List Cmd → Layout → Option Layout
  | [], l => some l
  | cmd :: cmds, l =>
    match applyCmd cmd l with
    | none => none
    | some (l', _) => applyCmds cmds l'

/-- Referential integrity: every seat's `sectionId` equals the id of the
section whose `seats` sequence contains it (and that section is, by
construction of the statement, present in `layout.sections`). -/
def integrity (l : Layout) : Prop :=
  ∀ sec ∈ l.sections, ∀ st ∈ sec.seats, st.sectionId = sec.id

instance (l : Layout) : Decidable (integrity l) := by
  unfold integrity; infer_instance

/-- Coherence of the effect results of a single command: within one
`duplicateSection`, every `Date.now()` evaluated for a copied seat's
`sectionId` returns the same millisecond as the `Date.now()` evaluated
for the new section's id. -/
def Cmd.coherentClock : Cmd → Prop
  | .duplicateSection _ t0 oracle => ∀ i, (oracle i).2.2 = t0
  | _ => True

/-! ## Heap-level model of `handleDragEnd`

The source computes `const newLayout = { ...layout }`: a shallow copy
that shares the `sections` array (and hence each section object) with the
previous snapshot, and then assigns
`newLayout.sections[sectionIndex].x = ...` through that shared structure.
The heap is modelled as a list of section objects indexed by address; a
layout reference holds the addresses of its sections. -/

/-- A layout object holding references (heap addresses) to its sections. -/
structure LayoutRef where
  sectionAddrs : List ℕ
  scale : ℚ
deriving DecidableEq, Repr

/-- The section values a holder of `lr` observes in heap `h`. -/
def readSnapshot (h : List Section) (lr : LayoutRef) : List (Option Section) :=
  lr.sectionAddrs.map fun a => h.get? a

/-- `handleDragEnd` at the heap level.  `{ ...layout }` yields a new
layout object with the same `sectionAddrs`; `findIndex` scans the shared
array; the field assignment stores the updated section object back at the
shared address.  Returns the new heap and the new layout object. -/
def heapDragEnd (h : List Section) (lr : LayoutRef) (id : String)
    (wx wy : ℚ) : List Section × LayoutRef :=
  let newLr : LayoutRef := { sectionAddrs := lr.sectionAddrs, scale := lr.scale }
  match lr.sectionAddrs.findIdx? (fun a =>
      match h.get? a with
      | some sec => sec.id == id
      | none => false) with
  | none => (h, newLr)
  | some i =>
    match lr.sectionAddrs.get? i with
    | none => (h, newLr)
    | some a =>
      match h.get? a with
      | none => (h, newLr)
      | some sec =>
        (h.set a { sec with x := wx - sec.width / 2, y := wy - sec.height / 2 },
         newLr)
/-! ## General facts about the grid fill -/

/-- The clamped horizontal spacing `spacingX` computed by
`handleFillWithSeats`. -/
def fillSpacingX (sec : Section) (cols : ℕ) (seatSize : ℚ) : ℚ :=
  max 15 ((sec.width - ((cols : ℚ) * seatSize * 2)) / ((cols + 1 : ℕ) : ℚ))

/-- The clamped vertical spacing `spacingY` computed by
`handleFillWithSeats`. -/
def fillSpacingY (sec : Section) (rows : ℕ) (seatSize : ℚ) : ℚ :=
  max 15 ((sec.height - ((rows : ℚ) * seatSize * 2)) / ((rows + 1 : ℕ) : ℚ))

/-- When the target section is found, the fill always takes the success
branch (the `spacing < minPadding` test compares the already-clamped
values, so it can never hold) and replaces the first matching section's
seats with the generated grid. -/
theorem handleFillWithSeats_eq (l : Layout) (sid : String) (rows cols : ℕ)
    (ss : ℚ) (sec : Section)
    (hfind : l.sections.find? (fun s => s.id == sid) = some sec) :
    handleFillWithSeats l sid rows cols ss =
      (⟨modifyFirst (fun s => s.id == sid)
          (fun s => { s with
            seats := gridSeats sec.name sid rows cols ss
              (fillSpacingX sec cols ss) (fillSpacingY sec rows ss) })
          l.sections, l.scale⟩, true) := by
  have hguard :
      ¬ (fillSpacingX sec cols ss < 15 ∨ fillSpacingY sec rows ss < 15) := by
    push_neg
    exact ⟨le_max_left _ _, le_max_left _ _⟩
  unfold handleFillWithSeats
  rw [hfind]
  simp only [fillSpacingX, fillSpacingY] at hguard
  simp only [if_neg hguard, fillSpacingX, fillSpacingY]

theorem gridSeats_length (sectionName sectionId : String) (rows cols : ℕ)
    (seatSize spacingX spacingY : ℚ) :
    (gridSeats sectionName sectionId rows cols seatSize spacingX spacingY).length
      = rows * cols := by
  simp [gridSeats, Function.comp_def, List.map_const', List.sum_replicate,
    smul_eq_mul]

theorem mem_gridSeats (sectionName sectionId : String) (rows cols : ℕ)
    (seatSize spacingX spacingY : ℚ) (st : Seat) :
    st ∈ gridSeats sectionName sectionId rows cols seatSize spacingX spacingY ↔
      ∃ r < rows, ∃ c < cols,
        st = gridSeat sectionName sectionId seatSize spacingX spacingY r c := by
  unfold gridSeats
  simp only [List.mem_flatMap, List.mem_map, List.mem_range]
  constructor
  · rintro ⟨r, hr, c, hc, rfl⟩
    exact ⟨r, hr, c, hc, rfl⟩
  · rintro ⟨r, hr, c, hc, rfl⟩
    exact ⟨r, hr, c, hc, rfl⟩

/-! ## Concrete layouts used by the instance theorems -/

/-- A pre-existing seat of the 60-by-60 section, present before a fill. -/
def preSeat : Seat :=
  { id := "pre", x := 1, y := 1, row := "A", number := 1,
    sectionId := "s60", seatSize := 8 }

/-- A 60-by-60 section holding one seat: the configuration of the
grid-fill rejection test of the specification. -/
def sec60 : Section :=
  { id := "s60", name := "Tiny", color := "#fff",
    x := 0, y := 0, width := 60, height := 60, rotation := 0,
    seats := [preSeat], type := .section }

/-- Layout holding only `sec60`. -/
def layout60 : Layout := { sections := [sec60], scale := 1 }

/-- A 300-by-200 section: the configuration of the grid-fill coverage
test of the specification. -/
def secMain : Section :=
  { id := "sec-main", name := "Main", color := "#abc",
    x := 10, y := 20, width := 300, height := 200, rotation := 0,
    seats := [], type := .section }

/-- Layout holding only `secMain`. -/
def layoutMain : Layout := { sections := [secMain], scale := 1 }

/-- A label section, target of the label-exclusion theorems. -/
def labelSection : Section :=
  { id := "label-1", name := "Stage", color := "#2c3e50",
    x := 100, y := 50, width := 200, height := 100, rotation := 0,
    seats := [], type := .label }

/-- Layout holding only `labelSection`. -/
def labelLayout : Layout := { sections := [labelSection], scale := 1 }

/-- C2: the claim states that `fillWithSeats` rejects with `TooSmall`
whenever a raw spacing value before the `max` clamp is below the minimum
padding 15, leaving the seats unchanged — in particular on a 60-by-60
section with `rows = 10, cols = 10, seatSize = 8`.  The code instead
clamps with `max(minPadding, raw)` *before* comparing against
`minPadding`, so the rejection branch is unreachable: on exactly that
input the raw horizontal spacing `(60 - 160)/11` is below 15, yet the
fill succeeds, replaces the section's one existing seat with 100 new
seats, and notifies the observer.  This contradicts the code's own guard
comment (`// Ensure we have enough space`) and its unreachable
`'Section too small'` warning: the claim records the intent, the code is
the slip. -/
theorem fillWithSeats_tooSmall_guard_unreachable :
    ((60 - (10 * (8 : ℚ) * 2)) / (10 + 1) < 15) ∧
      (handleFillWithSeats layout60 "s60" 10 10 8).2 = true ∧
      ((handleFillWithSeats layout60 "s60" 10 10 8).1.sections.map
        fun s => s.seats.length) = [100] ∧
      (layout60.sections.map fun s => s.seats.length) = [1] := by
  have hfind : layout60.sections.find? (fun s => s.id == "s60") = some sec60 := by
    decide
  have heq := handleFillWithSeats_eq layout60 "s60" 10 10 8 sec60 hfind
  refine ⟨by norm_num, ?_, ?_, by decide⟩
  · rw [heq]
  · rw [heq]
    simp [layout60, sec60, modifyFirst, gridSeats_length]

/-- Counterexample for C5: `handleFillWithSeats` itself contains no
`type === 'section'` check, so the fill command applied directly to a
label section populates it: on a 200-by-100 label section a 1-by-1 fill
produces a seat and notifies, so the label's `seats` sequence does not
remain empty. -/
theorem fillWithSeats_fills_label_section :
    ((handleFillWithSeats labelLayout "label-1" 1 1 8).1.sections.map
        fun s => (s.type == SectionType.label, s.seats.length)) = [(true, 1)] ∧
      (handleFillWithSeats labelLayout "label-1" 1 1 8).2 = true := by
  have hfind :
      labelLayout.sections.find? (fun s => s.id == "label-1") = some labelSection := by
    decide
  have heq := handleFillWithSeats_eq labelLayout "label-1" 1 1 8 labelSection hfind
  refine ⟨?_, ?_⟩
  · rw [heq]
    simp [labelLayout, labelSection, modifyFirst, gridSeats_length]
  · rw [heq]

/-- C5 amended: `addSeat` on a label section is a no-op without
notification, and the grid fill reaches a section only through the
context-menu path, whose dialog-opening guard refuses sections with
`type !== 'section'`; so along the command surface the component
exposes, a label section's `seats` stays as it is (in particular
empty).  Only the raw `handleFillWithSeats` function, which no UI path
reaches for a label section, lacks the type check (see the
counterexample). -/
theorem label_section_addSeat_and_guarded_fill_noop
    (l : Layout) (sid : String) (sec : Section)
    (hfind : l.sections.find? (fun s => s.id == sid) = some sec)
    (hlabel : sec.type = SectionType.label)
    (r1 r2 : ℚ) (tok : String) (rows cols : ℕ) (seatSize : ℚ) :
    handleSectionClickAddSeat l sid r1 r2 tok = (l, false) ∧
      fillViaContextMenu l sid rows cols seatSize = (l, false) := by
  constructor
  · unfold handleSectionClickAddSeat
    rw [hfind]
    simp [hlabel]
  · unfold fillViaContextMenu
    rw [hfind]
    simp [hlabel]

/-- Witness for C5's amended theorem: the label layout with the add-seat
tool and a 5-by-8 guarded fill. -/
theorem label_section_addSeat_and_guarded_fill_noop_witness :
    (labelLayout.sections.find? (fun s => s.id == "label-1") = some labelSection) ∧
      (labelSection.type = SectionType.label) ∧
      handleSectionClickAddSeat labelLayout "label-1" 0 0 "XYZ" = (labelLayout, false) ∧
      fillViaContextMenu labelLayout "label-1" 5 8 8 = (labelLayout, false) := by
  have h := label_section_addSeat_and_guarded_fill_noop labelLayout "label-1"
    labelSection (by decide) (by decide) 0 0 "XYZ" 5 8 8
  exact ⟨by decide, by decide, h.1, h.2⟩

/-! ## Unknown target ids -/

/-- Counterexample for C4: the claim says a command whose target id does
not occur fires no observer notification, naming `moveSection` and
`transformSection` in particular.  But `handleDragEnd` and
`handleTransformEnd` call `setLayout`/`onLayoutChange` unconditionally,
after the `findIndex !== -1` guard: with the unknown id `"missing"` on
the default layout both commands notify the observer. -/
theorem moveSection_unknown_id_notifies :
    defaultLayout.sections.find? (fun s => s.id == "missing") = none ∧
      (handleDragEnd defaultLayout "missing" 0 0).2 = true ∧
      (handleTransformEnd defaultLayout "missing" 0 0 150 120 45).2 = true :=
  ⟨by decide, rfl, rfl⟩

/-- C4 amended: when the target section id does not occur in the layout,
every command leaves the layout value unchanged; the commands that guard
their whole effect (`addSeat`, `fillWithSeats`, `duplicateSection`,
`deleteSection`, `deleteSeat`, `renameSection`, `recolorSection`,
`renameSeat`) also skip the notification, but `moveSection`
(`handleDragEnd`) and `transformSection` (`handleTransformEnd`) still
invoke `onLayoutChange` (with the unchanged value), and `moveSeat`
(`handleSeatDragEnd`) throws a `TypeError` (modelled `none`) instead of
no-oping. -/
theorem unknown_section_id_behavior
    (l : Layout) (sid : String)
    (hfind : l.sections.find? (fun s => s.id == sid) = none)
    (seatId tok color newName newId : String)
    (r1 r2 wx wy c s nx ny rawW rawH rot seatSize : ℚ)
    (rows cols : ℕ) (t0 : ℕ) (oracle : ℕ → ℕ × String × ℕ) :
    handleDragEnd l sid wx wy = (l, true) ∧
      handleTransformEnd l sid nx ny rawW rawH rot = (l, true) ∧
      handleSectionClickAddSeat l sid r1 r2 tok = (l, false) ∧
      handleFillWithSeats l sid rows cols seatSize = (l, false) ∧
      handleDuplicateSection l sid t0 oracle = (l, false) ∧
      handleDeleteSection l sid = (l, false) ∧
      handleSeatActionDelete l sid seatId = (l, false) ∧
      handleSectionNameChange l sid newName = (l, false) ∧
      handleChangeColor l sid color = (l, false) ∧
      handleSeatEdit l sid seatId newId = (l, false) ∧
      handleSeatDragEnd l sid seatId wx wy c s = none := by
  have hidx : l.sections.findIdx? (fun s => s.id == sid) = none := by
    rw [List.findIdx?_eq_none_iff]
    intro x hx
    have := List.find?_eq_none.1 hfind x hx
    simpa using this
  refine ⟨?_, ?_, ?_, ?_, ?_, ?_, ?_, ?_, ?_, ?_, ?_⟩
  · unfold handleDragEnd
    rw [modifyFirst_of_find?_eq_none hfind]
  · unfold handleTransformEnd
    rw [modifyFirst_of_find?_eq_none hfind]
  · unfold handleSectionClickAddSeat
    rw [hfind]
  · unfold handleFillWithSeats
    rw [hfind]
  · unfold handleDuplicateSection
    rw [hfind]
  · unfold handleDeleteSection
    rw [hidx]
  · unfold handleSeatActionDelete
    rw [hfind]
  · unfold handleSectionNameChange
    rw [hfind]
  · unfold handleChangeColor
    rw [hfind]
  · unfold handleSeatEdit
    rw [hfind]
  · unfold handleSeatDragEnd
    rw [hfind]

/-- Witness for C4's amended theorem: the default layout with the
unknown id `"nope"` and concrete arguments for every command. -/
theorem unknown_section_id_behavior_witness :
    (defaultLayout.sections.find? (fun s => s.id == "nope") = none) ∧
      handleDragEnd defaultLayout "nope" 3 4 = (defaultLayout, true) ∧
      handleSeatActionDelete defaultLayout "nope" "st" = (defaultLayout, false) ∧
      handleSeatDragEnd defaultLayout "nope" "st" 0 0 1 0 = none := by
  have h := unknown_section_id_behavior defaultLayout "nope" (by decide)
    "st" "tok" "#123" "name" "newid" 0 0 3 4 1 0 0 0 150 120 45 8 2 3 7
    (fun _ => (7, "r", 7))
  exact ⟨by decide, h.1, h.2.2.2.2.2.2.1, h.2.2.2.2.2.2.2.2.2.2⟩

/-- C6: on a found section, `fillWithSeats` replaces the first matching
section's seats entirely with exactly `rows * cols` generated seats; a
seat belongs to the result exactly when it is the seat of some row
`r < rows` and column `c < cols`, with
`x = spacingX + c*(seatSize*2 + spacingX)`,
`y = spacingY + r*(seatSize*2 + spacingY)`, row label the single letter
with character code `65 + r`, number `c + 1`, and id
`"{sectionName}-{rowLabel}-{number}"`.  (The fill never rejects — see the
C2 theorem — so every parameter combination is accepted.) -/
theorem fillWithSeats_grid_spec
    (l : Layout) (sid : String) (rows cols : ℕ) (ss : ℚ) (sec : Section)
    (hfind : l.sections.find? (fun s => s.id == sid) = some sec)
    (_htype : sec.type = SectionType.section) :
    ∃ pre post, l.sections = pre ++ sec :: post ∧
      (∀ x ∈ pre, (x.id == sid) = false) ∧
      handleFillWithSeats l sid rows cols ss =
        (⟨pre ++ { sec with
            seats := gridSeats sec.name sid rows cols ss
              (fillSpacingX sec cols ss) (fillSpacingY sec rows ss) } :: post,
          l.scale⟩, true) ∧
      (gridSeats sec.name sid rows cols ss
        (fillSpacingX sec cols ss) (fillSpacingY sec rows ss)).length = rows * cols ∧
      ∀ st, st ∈ gridSeats sec.name sid rows cols ss
          (fillSpacingX sec cols ss) (fillSpacingY sec rows ss) ↔
        ∃ r < rows, ∃ c < cols,
          st = { id := sec.name ++ "-" ++ rowLabel r ++ "-" ++ toString (c + 1),
                 x := fillSpacingX sec cols ss
                   + (c : ℚ) * (ss * 2 + fillSpacingX sec cols ss),
                 y := fillSpacingY sec rows ss
                   + (r : ℚ) * (ss * 2 + fillSpacingY sec rows ss),
                 row := rowLabel r, number := c + 1,
                 sectionId := sid, seatSize := ss } := by
  obtain ⟨pre, post, hsecs, hpre, hpa⟩ := find?_eq_some_split hfind
  refine ⟨pre, post, hsecs, hpre, ?_, gridSeats_length _ _ _ _ _ _ _, ?_⟩
  · rw [handleFillWithSeats_eq l sid rows cols ss sec hfind, hsecs,
      modifyFirst_append hpre hpa]
  · intro st
    rw [mem_gridSeats]
    constructor
    · rintro ⟨r, hr, c, hc, rfl⟩
      exact ⟨r, hr, c, hc, rfl⟩
    · rintro ⟨r, hr, c, hc, rfl⟩
      exact ⟨r, hr, c, hc, rfl⟩

/-- Witness for C6: the specification's concrete coverage case — a
3-by-4 fill with seat radius 8 on the 300-by-200 section `secMain`:
the general theorem applies, the result holds exactly 12 seats, the
spacings evaluate to 236/5 and 38, every generated seat lies within
`[0, 300] × [0, 200]`, the row labels are A, B, C with numbers 1..4 per
row, and the 12 generated ids are pairwise distinct. -/
theorem fillWithSeats_grid_spec_witness :
    (layoutMain.sections.find? (fun s => s.id == "sec-main") = some secMain) ∧
      (secMain.type = SectionType.section) ∧
      (∃ pre post, layoutMain.sections = pre ++ secMain :: post ∧
        (∀ x ∈ pre, (x.id == "sec-main") = false) ∧
        handleFillWithSeats layoutMain "sec-main" 3 4 8 =
          (⟨pre ++ { secMain with
              seats := gridSeats secMain.name "sec-main" 3 4 8
                (fillSpacingX secMain 4 8) (fillSpacingY secMain 3 8) } :: post,
            layoutMain.scale⟩, true) ∧
        (gridSeats secMain.name "sec-main" 3 4 8
          (fillSpacingX secMain 4 8) (fillSpacingY secMain 3 8)).length = 3 * 4 ∧
        ∀ st, st ∈ gridSeats secMain.name "sec-main" 3 4 8
            (fillSpacingX secMain 4 8) (fillSpacingY secMain 3 8) ↔
          ∃ r < (3 : ℕ), ∃ c < (4 : ℕ),
            st = { id := secMain.name ++ "-" ++ rowLabel r ++ "-" ++ toString (c + 1),
                   x := fillSpacingX secMain 4 8
                     + (c : ℚ) * (8 * 2 + fillSpacingX secMain 4 8),
                   y := fillSpacingY secMain 3 8
                     + (r : ℚ) * (8 * 2 + fillSpacingY secMain 3 8),
                   row := rowLabel r, number := c + 1,
                   sectionId := "sec-main", seatSize := 8 }) ∧
      (fillSpacingX secMain 4 8 = 236 / 5 ∧ fillSpacingY secMain 3 8 = 38) ∧
      (∀ st ∈ gridSeats secMain.name "sec-main" 3 4 8
          (fillSpacingX secMain 4 8) (fillSpacingY secMain 3 8),
        0 ≤ st.x ∧ st.x ≤ 300 ∧ 0 ≤ st.y ∧ st.y ≤ 200) ∧
      ((gridSeats secMain.name "sec-main" 3 4 8
          (fillSpacingX secMain 4 8) (fillSpacingY secMain 3 8)).map
        fun st => (st.row, st.number)) =
        [("A", 1), ("A", 2), ("A", 3), ("A", 4),
         ("B", 1), ("B", 2), ("B", 3), ("B", 4),
         ("C", 1), ("C", 2), ("C", 3), ("C", 4)] ∧
      ((gridSeats secMain.name "sec-main" 3 4 8
          (fillSpacingX secMain 4 8) (fillSpacingY secMain 3 8)).map
        fun st => st.id).Nodup := by
  have hsx : fillSpacingX secMain 4 8 = 236 / 5 := by
    norm_num [fillSpacingX, secMain]
  have hsy : fillSpacingY secMain 3 8 = 38 := by
    norm_num [fillSpacingY, secMain]
  refine ⟨by decide, by decide,
    fillWithSeats_grid_spec layoutMain "sec-main" 3 4 8 secMain (by decide) (by decide),
    ⟨hsx, hsy⟩, ?_, by decide, by decide⟩
  rw [hsx, hsy]
  simp only [gridSeats, gridSeat, List.mem_flatMap, List.mem_map, List.mem_range]
  rintro st ⟨r, hr, c, hc, rfl⟩
  interval_cases r <;> interval_cases c <;> norm_num

/-! ## Individual seat addition -/

/-- Counterexample for C7: the claim places the added seat at the
`worldToLocal` conversion of the clicked world position, but the source
ignores the pointer position entirely (the click handler does not even
receive it) and draws the position from two `Math.random()` calls.  With
both random draws 0, the seat added to the unrotated default section
lands at (10, 10), while `worldToLocal` of the concrete click position
(100, 250) is (50, 50). -/
theorem addSeat_position_not_worldToLocal :
    ((handleSectionClickAddSeat defaultLayout "section-1" 0 0 "XYZ").1.sections.map
      fun s => s.seats.map fun st => (st.x, st.y)) = [[((10 : ℚ), (10 : ℚ))], []] ∧
      worldToLocal sectionA 1 0 (100, 250) = (50, 50) ∧
      ((10 : ℚ), (10 : ℚ)) ≠ (((50 : ℚ), (50 : ℚ)) : ℚ × ℚ) := by
  refine ⟨?_, ?_, by norm_num⟩
  · norm_num [handleSectionClickAddSeat, defaultLayout, sectionA, sectionB,
      modifyFirst]
  · norm_num [worldToLocal, sectionA]

/-- C7 amended: on an existing section of type `'section'`, `addSeat`
appends exactly one seat to that section's seats, positioned at
`(r1 * (width - 20) + 10, r2 * (height - 20) + 10)` for the two
`Math.random()` draws `r1`, `r2` (independent of the click's world
position), with seat radius 8, row `"A"`, number one more than the
previous seat count, and id `"{sectionName}-{tok}"` for the random
three-character suffix `tok`; every other section and every other field
is unchanged, and the observer is notified. -/
theorem addSeat_spec (l : Layout) (sid : String) (r1 r2 : ℚ) (tok : String)
    (sec : Section)
    (hfind : l.sections.find? (fun s => s.id == sid) = some sec)
    (htype : sec.type = SectionType.section) :
    ∃ pre post, l.sections = pre ++ sec :: post ∧
      (∀ x ∈ pre, (x.id == sid) = false) ∧
      handleSectionClickAddSeat l sid r1 r2 tok =
        (⟨pre ++ { sec with
            seats := sec.seats ++
              [{ id := sec.name ++ "-" ++ tok,
                 x := r1 * (sec.width - 20) + 10,
                 y := r2 * (sec.height - 20) + 10,
                 row := "A", number := sec.seats.length + 1,
                 sectionId := sid, seatSize := 8 }] } :: post,
          l.scale⟩, true) := by
  obtain ⟨pre, post, hsecs, hpre, hpa⟩ := find?_eq_some_split hfind
  refine ⟨pre, post, hsecs, hpre, ?_⟩
  unfold handleSectionClickAddSeat
  rw [hfind]
  simp only [htype, beq_self_eq_true, if_pos]
  rw [hsecs, modifyFirst_append hpre hpa, htype]

/-- Witness for C7's amended theorem: adding a seat to the default
layout's first section with random draws 1/2 and 1/3 and suffix
`"QQQ"`. -/
theorem addSeat_spec_witness :
    ∃ pre post, defaultLayout.sections = pre ++ sectionA :: post ∧
      (∀ x ∈ pre, (x.id == "section-1") = false) ∧
      handleSectionClickAddSeat defaultLayout "section-1" (1 / 2) (1 / 3) "QQQ" =
        (⟨pre ++ { sectionA with
            seats := sectionA.seats ++
              [{ id := sectionA.name ++ "-" ++ "QQQ",
                 x := 1 / 2 * (sectionA.width - 20) + 10,
                 y := 1 / 3 * (sectionA.height - 20) + 10,
                 row := "A", number := sectionA.seats.length + 1,
                 sectionId := "section-1", seatSize := 8 }] } :: post,
          defaultLayout.scale⟩, true) :=
  addSeat_spec defaultLayout "section-1" (1 / 2) (1 / 3) "QQQ" sectionA
    (by decide) (by decide)

/-! ## Seat deletion -/

/-- C10: when the target section exists and contains a seat with the
given id, `deleteSeat` replaces that section's seats with exactly the
subsequence of seats whose id differs from `seatId` (an order-preserving
sublist containing a seat exactly when it was present before and its id
differs — so several seats sharing the id are all removed by one call),
leaves every other section unchanged, and notifies. -/
theorem deleteSeat_spec (l : Layout) (sid seatId : String) (sec : Section)
    (hfind : l.sections.find? (fun s => s.id == sid) = some sec)
    (hseat : (sec.seats.find? (fun st => st.id == seatId)).isSome = true) :
    ∃ pre post, l.sections = pre ++ sec :: post ∧
      (∀ x ∈ pre, (x.id == sid) = false) ∧
      handleSeatActionDelete l sid seatId =
        (⟨pre ++ { sec with
            seats := sec.seats.filter fun st => !(st.id == seatId) } :: post,
          l.scale⟩, true) ∧
      (sec.seats.filter fun st => !(st.id == seatId)).Sublist sec.seats ∧
      ∀ st, st ∈ sec.seats.filter (fun st2 => !(st2.id == seatId)) ↔
        (st ∈ sec.seats ∧ st.id ≠ seatId) := by
  obtain ⟨pre, post, hsecs, hpre, hpa⟩ := find?_eq_some_split hfind
  obtain ⟨st0, hst0⟩ := Option.isSome_iff_exists.1 hseat
  refine ⟨pre, post, hsecs, hpre, ?_, List.filter_sublist _, ?_⟩
  · unfold handleSeatActionDelete
    rw [hfind]
    simp only [hst0]
    rw [hsecs, modifyFirst_append hpre hpa]
  · intro st
    simp [List.mem_filter]

/-- A seat with id `"X"` (first occurrence) in the duplicate-id layout. -/
def seatXa : Seat :=
  { id := "X", x := 1, y := 2, row := "A", number := 1,
    sectionId := "dup", seatSize := 8 }

/-- A seat with id `"Y"` in the duplicate-id layout. -/
def seatYb : Seat :=
  { id := "Y", x := 3, y := 4, row := "A", number := 2,
    sectionId := "dup", seatSize := 8 }

/-- A second seat with the same id `"X"` in the duplicate-id layout. -/
def seatXc : Seat :=
  { id := "X", x := 5, y := 6, row := "A", number := 3,
    sectionId := "dup", seatSize := 8 }

/-- A section whose seats contain a duplicated id. -/
def dupSeatSection : Section :=
  { id := "dup", name := "Dup", color := "#ddd",
    x := 0, y := 0, width := 100, height := 100, rotation := 0,
    seats := [seatXa, seatYb, seatXc], type := .section }

/-- Layout holding only `dupSeatSection`. -/
def dupSeatLayout : Layout := { sections := [dupSeatSection], scale := 1 }

/-- Witness for C10: deleting seat id `"X"` from a section whose seats
are `[X, Y, X]` removes both seats named `"X"` in one call and keeps
`Y`. -/
theorem deleteSeat_spec_witness :
    (dupSeatLayout.sections.find? (fun s => s.id == "dup") = some dupSeatSection) ∧
      ((dupSeatSection.seats.find? (fun st => st.id == "X")).isSome = true) ∧
      (∃ pre post, dupSeatLayout.sections = pre ++ dupSeatSection :: post ∧
        (∀ x ∈ pre, (x.id == "dup") = false) ∧
        handleSeatActionDelete dupSeatLayout "dup" "X" =
          (⟨pre ++ { dupSeatSection with
              seats := dupSeatSection.seats.filter fun st => !(st.id == "X") } :: post,
            dupSeatLayout.scale⟩, true) ∧
        (dupSeatSection.seats.filter fun st => !(st.id == "X")).Sublist
          dupSeatSection.seats ∧
        ∀ st, st ∈ dupSeatSection.seats.filter (fun st2 => !(st2.id == "X")) ↔
          (st ∈ dupSeatSection.seats ∧ st.id ≠ "X")) ∧
      ((handleSeatActionDelete dupSeatLayout "dup" "X").1.sections.map
        fun s => s.seats.map fun st => st.id) = [["Y"]] := by
  exact ⟨by decide, by decide,
    deleteSeat_spec dupSeatLayout "dup" "X" dupSeatSection (by decide) (by decide),
    by decide⟩

/-! ## Duplication -/

/-- All ids (section ids and seat ids) present in a layout. -/
def layoutIds (l : Layout) : List String :=
  l.sections.map (fun s => s.id) ++
    l.sections.flatMap fun s => s.seats.map fun st => st.id

/-- A fixed effect oracle that stamps every duplicated seat with
`Date.now() = 100` for its `sectionId` (coherent with the section id's
timestamp 100). -/
def dupOracle100 : ℕ → ℕ × String × ℕ := fun i => (50 + i, "z", 100)

/-- Counterexample for C8: the duplicate's ids come from `Date.now()`,
so duplicating `section-1` of the default layout twice in the same
millisecond (timestamp 100) yields two sections both named
`"section-100"`: the second duplicate's id is *not* distinct from the
ids already present at duplication time.  (The copy's `name` also gains
the suffix `" (Copy)"`, so the copy is not a pure field-for-field deep
copy plus offset.) -/
theorem duplicateSection_id_collision :
    (((handleDuplicateSection defaultLayout "section-1" 100 dupOracle100).1.sections.map
      fun s => s.id) = ["section-1", "section-2", "section-100"]) ∧
      (((handleDuplicateSection
          (handleDuplicateSection defaultLayout "section-1" 100 dupOracle100).1
          "section-1" 100 dupOracle100).1.sections.map fun s => s.id) =
        ["section-1", "section-2", "section-100", "section-100"]) ∧
      (((handleDuplicateSection defaultLayout "section-1" 100 dupOracle100).1.sections.map
        fun s => s.name) = ["Section A", "Section B", "Section A (Copy)"]) := by
  refine ⟨by decide, by decide, by decide⟩

/-- C8 amended: `duplicateSection` on a found section appends exactly one
new section copying the original's color, width, height, rotation and
type, offset by (+20, +20), with name suffixed `" (Copy)"`, id
`"section-{t0}"` for the `Date.now()` result `t0`, and one copied seat
per original seat (same x, y, row and number; id
`"seat-{tI}-{r}"` and sectionId `"section-{tS}"` from that seat's own
effect results; a seatSize of 0 — falsy in JavaScript — becomes 8).
The new section id and all new seat ids are distinct from every id
already present *provided* the generated id strings are fresh, which the
code does not itself guarantee (see the same-millisecond collision
counterexample). -/
theorem duplicateSection_spec (l : Layout) (sid : String) (t0 : ℕ)
    (oracle : ℕ → ℕ × String × ℕ) (sec : Section)
    (hfind : l.sections.find? (fun s => s.id == sid) = some sec)
    (hsecFresh : ("section-" ++ toString t0) ∉ layoutIds l)
    (hseatFresh : ∀ i < sec.seats.length,
      ("seat-" ++ toString (oracle i).1 ++ "-" ++ (oracle i).2.1) ∉ layoutIds l) :
    ∃ newSection,
      handleDuplicateSection l sid t0 oracle =
        (⟨l.sections ++ [newSection], l.scale⟩, true) ∧
      newSection.id = "section-" ++ toString t0 ∧
      newSection.name = sec.name ++ " (Copy)" ∧
      newSection.x = sec.x + 20 ∧ newSection.y = sec.y + 20 ∧
      newSection.color = sec.color ∧ newSection.width = sec.width ∧
      newSection.height = sec.height ∧ newSection.rotation = sec.rotation ∧
      newSection.type = sec.type ∧
      newSection.seats.length = sec.seats.length ∧
      (∀ i, i < sec.seats.length →
        newSection.seats[i]? = (sec.seats[i]?).map fun st =>
          { st with
            id := "seat-" ++ toString (oracle i).1 ++ "-" ++ (oracle i).2.1,
            sectionId := "section-" ++ toString (oracle i).2.2,
            seatSize := if st.seatSize = 0 then 8 else st.seatSize }) ∧
      newSection.id ∉ layoutIds l ∧
      ∀ st ∈ newSection.seats, st.id ∉ layoutIds l := by
  refine ⟨{ sec with
      id := "section-" ++ toString t0,
      name := sec.name ++ " (Copy)",
      x := sec.x + 20,
      y := sec.y + 20,
      seats := sec.seats.enum.map fun iseat =>
        { iseat.2 with
          id := "seat-" ++ toString (oracle iseat.1).1 ++ "-" ++ (oracle iseat.1).2.1,
          sectionId := "section-" ++ toString (oracle iseat.1).2.2,
          seatSize := if iseat.2.seatSize = 0 then 8
            else iseat.2.seatSize } },
    ?_, rfl, rfl, rfl, rfl, rfl, rfl, rfl, rfl, rfl, ?_, ?_, hsecFresh, ?_⟩
  · unfold handleDuplicateSection
    rw [hfind]
  · simp
  · intro i hi
    simp [List.getElem?_map, List.getElem?_enum, Option.map_map, Function.comp_def]
  · intro st hst
    rw [List.mem_map] at hst
    obtain ⟨x, hx, rfl⟩ := hst
    rw [List.mem_enum_iff_getElem?] at hx
    have hlt : x.1 < sec.seats.length := by
      rcases List.getElem?_eq_some_iff.1 hx with ⟨h, _⟩
      exact h
    exact hseatFresh x.1 hlt

/-- Witness for C8's amended theorem: duplicating the seat-holding
section `dupSeatSection` with timestamp 99 and fresh seat tokens. -/
theorem duplicateSection_spec_witness :
    (dupSeatLayout.sections.find? (fun s => s.id == "dup") = some dupSeatSection) ∧
      (("section-" ++ toString 99) ∉ layoutIds dupSeatLayout) ∧
      (∀ i < dupSeatSection.seats.length,
        ("seat-" ++ toString (dupOracle100 i).1 ++ "-" ++ (dupOracle100 i).2.1)
          ∉ layoutIds dupSeatLayout) ∧
      ∃ newSection,
        handleDuplicateSection dupSeatLayout "dup" 99 dupOracle100 =
          (⟨dupSeatLayout.sections ++ [newSection], dupSeatLayout.scale⟩, true) ∧
        newSection.id = "section-" ++ toString 99 ∧
        newSection.name = dupSeatSection.name ++ " (Copy)" ∧
        newSection.x = dupSeatSection.x + 20 ∧ newSection.y = dupSeatSection.y + 20 ∧
        newSection.color = dupSeatSection.color ∧
        newSection.width = dupSeatSection.width ∧
        newSection.height = dupSeatSection.height ∧
        newSection.rotation = dupSeatSection.rotation ∧
        newSection.type = dupSeatSection.type ∧
        newSection.seats.length = dupSeatSection.seats.length ∧
        (∀ i, i < dupSeatSection.seats.length →
          newSection.seats[i]? = (dupSeatSection.seats[i]?).map fun st =>
            { st with
              id := "seat-" ++ toString (dupOracle100 i).1 ++ "-"
                ++ (dupOracle100 i).2.1,
              sectionId := "section-" ++ toString (dupOracle100 i).2.2,
              seatSize := if st.seatSize = 0 then 8 else st.seatSize }) ∧
        newSection.id ∉ layoutIds dupSeatLayout ∧
        ∀ st ∈ newSection.seats, st.id ∉ layoutIds dupSeatLayout :=
  ⟨by decide, by decide, by decide,
   duplicateSection_spec dupSeatLayout "dup" 99 dupOracle100 dupSeatSection
     (by decide) (by decide) (by decide)⟩

/-! ## Referential integrity along command sequences -/

theorem integrity_modifyFirst {l : Layout} {p : Section → Bool}
    {f : Section → Section} (hint : integrity l)
    (hf : ∀ sec, p sec = true → (∀ st ∈ sec.seats, st.sectionId = sec.id) →
      ∀ st ∈ (f sec).seats, st.sectionId = (f sec).id) :
    integrity ⟨modifyFirst p f l.sections, l.scale⟩ := by
  intro sec hsec st hst
  rcases mem_modifyFirst hsec with h | ⟨b, hb, hpb, rfl⟩
  · exact hint sec h st hst
  · exact hf b hpb (hint b hb) st hst

theorem integrity_append_single {l : Layout} {sec : Section} (hint : integrity l)
    (hsec : ∀ st ∈ sec.seats, st.sectionId = sec.id) (scale : ℚ) :
    integrity ⟨l.sections ++ [sec], scale⟩ := by
  intro sec2 hsec2 st hst
  rcases List.mem_append.1 hsec2 with h | h
  · exact hint sec2 h st hst
  · rcases List.mem_singleton.1 h with rfl
    exact hsec st hst

/-- One command preserves referential integrity, provided the command's
internal clock is coherent (within a `duplicateSection`, the `Date.now()`
stamped into each copied seat's `sectionId` agrees with the one stamped
into the new section's id). -/
theorem applyCmd_integrity (cmd : Cmd) (l l' : Layout) (b : Bool)
    (happ : applyCmd cmd l = some (l', b)) (hco : cmd.coherentClock)
    (hint : integrity l) : integrity l' := by
  cases cmd with
  | addSection now color =>
    simp only [applyCmd, addSection, Option.some.injEq, Prod.mk.injEq] at happ
    rcases happ with ⟨rfl, -⟩
    exact integrity_append_single hint (by simp) _
  | addLabelSection now =>
    simp only [applyCmd, addLabelSection, Option.some.injEq, Prod.mk.injEq] at happ
    rcases happ with ⟨rfl, -⟩
    exact integrity_append_single hint (by simp) _
  | addSeat sid r1 r2 tok =>
    simp only [applyCmd] at happ
    unfold handleSectionClickAddSeat at happ
    cases hfind : l.sections.find? (fun s => s.id == sid) with
    | none =>
      rw [hfind] at happ
      simp only [Option.some.injEq, Prod.mk.injEq] at happ
      rcases happ with ⟨rfl, -⟩
      exact hint
    | some sec =>
      rw [hfind] at happ
      by_cases htype : (sec.type == SectionType.section) = true
      · simp only [htype, if_pos, Option.some.injEq, Prod.mk.injEq] at happ
        rcases happ with ⟨rfl, -⟩
        refine integrity_modifyFirst hint ?_
        intro sec2 hp hok st hst
        rcases List.mem_append.1 hst with h | h
        · exact hok st h
        · rcases List.mem_singleton.1 h with rfl
          exact (eq_of_beq hp).symm
      · simp only [htype, if_neg, Bool.false_eq_true, Option.some.injEq,
          Prod.mk.injEq] at happ
        rcases happ with ⟨rfl, -⟩
        exact hint
  | fillWithSeats sid rows cols seatSize =>
    simp only [applyCmd] at happ
    unfold handleFillWithSeats at happ
    cases hfind : l.sections.find? (fun s => s.id == sid) with
    | none =>
      rw [hfind] at happ
      simp only [Option.some.injEq, Prod.mk.injEq] at happ
      rcases happ with ⟨rfl, -⟩
      exact hint
    | some sec =>
      rw [hfind] at happ
      simp only [Option.some.injEq, Prod.mk.injEq] at happ
      split at happ
      · rcases happ with ⟨rfl, -⟩
        exact hint
      · rcases happ with ⟨rfl, -⟩
        refine integrity_modifyFirst hint ?_
        intro sec2 hp hok st hst
        rw [mem_gridSeats] at hst
        rcases hst with ⟨r, hr, c, hc, rfl⟩
        exact (eq_of_beq hp).symm
  | duplicateSection sid t0 oracle =>
    simp only [applyCmd] at happ
    unfold handleDuplicateSection at happ
    cases hfind : l.sections.find? (fun s => s.id == sid) with
    | none =>
      rw [hfind] at happ
      simp only [Option.some.injEq, Prod.mk.injEq] at happ
      rcases happ with ⟨rfl, -⟩
      exact hint
    | some sec =>
      rw [hfind] at happ
      simp only [Option.some.injEq, Prod.mk.injEq] at happ
      rcases happ with ⟨rfl, -⟩
      refine integrity_append_single hint ?_ _
      intro st hst
      rw [List.mem_map] at hst
      obtain ⟨x, -, rfl⟩ := hst
      show "section-" ++ toString (oracle x.1).2.2 = "section-" ++ toString t0
      rw [hco x.1]
  | deleteSection sid =>
    simp only [applyCmd] at happ
    unfold handleDeleteSection at happ
    cases hidx : l.sections.findIdx? (fun s => s.id == sid) with
    | none =>
      rw [hidx] at happ
      simp only [Option.some.injEq, Prod.mk.injEq] at happ
      rcases happ with ⟨rfl, -⟩
      exact hint
    | some i =>
      rw [hidx] at happ
      simp only [Option.some.injEq, Prod.mk.injEq] at happ
      rcases happ with ⟨rfl, -⟩
      intro sec hsec st hst
      exact hint sec ((List.eraseIdx_sublist l.sections i).mem hsec) st hst
  | deleteSeat sid seatId =>
    simp only [applyCmd] at happ
    unfold handleSeatActionDelete at happ
    cases hfind : l.sections.find? (fun s => s.id == sid) with
    | none =>
      rw [hfind] at happ
      simp only [Option.some.injEq, Prod.mk.injEq] at happ
      rcases happ with ⟨rfl, -⟩
      exact hint
    | some sec =>
      rw [hfind] at happ
      cases hseat : sec.seats.find? (fun st => st.id == seatId) with
      | none =>
        simp only [hseat, Option.some.injEq, Prod.mk.injEq] at happ
        rcases happ with ⟨rfl, -⟩
        exact hint
      | some st0 =>
        simp only [hseat, Option.some.injEq, Prod.mk.injEq] at happ
        rcases happ with ⟨rfl, -⟩
        refine integrity_modifyFirst hint ?_
        intro sec2 hp hok st hst
        exact hok st (List.mem_of_mem_filter hst)
  | moveSection sid wx wy =>
    simp only [applyCmd, handleDragEnd, Option.some.injEq, Prod.mk.injEq] at happ
    rcases happ with ⟨rfl, -⟩
    exact integrity_modifyFirst hint fun sec hp hok st hst => hok st hst
  | transformSection sid nx ny rawW rawH rot =>
    simp only [applyCmd, handleTransformEnd, Option.some.injEq, Prod.mk.injEq] at happ
    rcases happ with ⟨rfl, -⟩
    exact integrity_modifyFirst hint fun sec hp hok st hst => hok st hst
  | moveSeat sid seatId wx wy c s =>
    simp only [applyCmd] at happ
    unfold handleSeatDragEnd at happ
    cases hfind : l.sections.find? (fun sec => sec.id == sid) with
    | none => rw [hfind] at happ; exact absurd happ (by simp)
    | some sec =>
      rw [hfind] at happ
      cases hseat : sec.seats.find? (fun st => st.id == seatId) with
      | none => simp [hseat] at happ
      | some st0 =>
        simp only [hseat, Option.some.injEq, Prod.mk.injEq] at happ
        rcases happ with ⟨rfl, -⟩
        refine integrity_modifyFirst hint ?_
        intro sec2 hp hok st hst
        rcases mem_modifyFirst hst with h | ⟨st1, hst1, -, rfl⟩
        · exact hok st h
        · exact hok st1 hst1
  | renameSection sid newName =>
    simp only [applyCmd] at happ
    unfold handleSectionNameChange at happ
    cases hfind : l.sections.find? (fun s => s.id == sid) with
    | none =>
      rw [hfind] at happ
      simp only [Option.some.injEq, Prod.mk.injEq] at happ
      rcases happ with ⟨rfl, -⟩
      exact hint
    | some sec =>
      rw [hfind] at happ
      simp only [Option.some.injEq, Prod.mk.injEq] at happ
      rcases happ with ⟨rfl, -⟩
      exact integrity_modifyFirst hint fun sec2 hp hok st hst => hok st hst
  | recolorSection sid color =>
    simp only [applyCmd] at happ
    unfold handleChangeColor at happ
    cases hfind : l.sections.find? (fun s => s.id == sid) with
    | none =>
      rw [hfind] at happ
      simp only [Option.some.injEq, Prod.mk.injEq] at happ
      rcases happ with ⟨rfl, -⟩
      exact hint
    | some sec =>
      rw [hfind] at happ
      simp only [Option.some.injEq, Prod.mk.injEq] at happ
      rcases happ with ⟨rfl, -⟩
      exact integrity_modifyFirst hint fun sec2 hp hok st hst => hok st hst
  | renameSeat sid seatId newId =>
    simp only [applyCmd] at happ
    unfold handleSeatEdit at happ
    cases hfind : l.sections.find? (fun s => s.id == sid) with
    | none =>
      rw [hfind] at happ
      simp only [Option.some.injEq, Prod.mk.injEq] at happ
      rcases happ with ⟨rfl, -⟩
      exact hint
    | some sec =>
      rw [hfind] at happ
      cases hseat : sec.seats.find? (fun st => st.id == seatId) with
      | none =>
        simp only [hseat, Option.some.injEq, Prod.mk.injEq] at happ
        rcases happ with ⟨rfl, -⟩
        exact hint
      | some st0 =>
        simp only [hseat, Option.some.injEq, Prod.mk.injEq] at happ
        rcases happ with ⟨rfl, -⟩
        refine integrity_modifyFirst hint ?_
        intro sec2 hp hok st hst
        rcases mem_modifyFirst hst with h | ⟨st1, hst1, -, rfl⟩
        · exact hok st h
        · exact hok st1 hst1

/-- C3 amended: starting from any layout satisfying referential
integrity (in particular the default layout), every layout reachable by
a finite command sequence satisfies it — every seat's `sectionId` equals
the id of the section whose seats sequence contains it — provided each
`duplicateSection` in the sequence has a coherent clock: all its
`Date.now()` calls return the same millisecond.  Without that proviso
the property is not preserved (see the counterexample, where a
`duplicateSection` whose second `Date.now()` ticks produces a seat whose
`sectionId` matches no section). -/
theorem integrity_reachable (cmds : List Cmd) (l l' : Layout)
    (hco : ∀ cmd ∈ cmds, cmd.coherentClock)
    (hint : integrity l) (happ : applyCmds cmds l = some l') :
    integrity l' := by
  induction cmds generalizing l with
  | nil =>
    simp only [applyCmds, Option.some.injEq] at happ
    exact happ ▸ hint
  | cons cmd cmds ih =>
    simp only [applyCmds] at happ
    cases hstep : applyCmd cmd l with
    | none => rw [hstep] at happ; exact absurd happ (by simp)
    | some res =>
      rw [hstep] at happ
      exact ih res.1
        (fun c hc => hco c (List.mem_cons_of_mem cmd hc))
        (applyCmd_integrity cmd l res.1 res.2 hstep
          (hco cmd (List.mem_cons_self cmd cmds)) hint)
        happ

/-- An effect oracle for a `duplicateSection` whose clock ticks between
the `Date.now()` of the new section's id and the `Date.now()` of a copied
seat's `sectionId` (100 versus 101). -/
def tickingOracle : ℕ → ℕ × String × ℕ := fun i => (50 + i, "z", 101)

/-- The command sequence of the C3 counterexample: add one seat to the
default layout's first section, then duplicate that section with a clock
that ticks mid-duplication. -/
def tickingCmds : List Cmd :=
  [Cmd.addSeat "section-1" 0 0 "XYZ",
   Cmd.duplicateSection "section-1" 100 tickingOracle]

/-- Counterexample for C3: the layout reached from the default layout by
`addSeat` followed by a `duplicateSection` whose internal `Date.now()`
calls straddle a millisecond boundary violates referential integrity —
the copied seat's `sectionId` is `"section-101"` while its owning
section's id is `"section-100"`. -/
theorem reachable_integrity_violation :
    (applyCmds tickingCmds defaultLayout).isSome = true ∧
      ¬ integrity ((applyCmds tickingCmds defaultLayout).getD defaultLayout) := by
  constructor
  · decide
  · intro h
    have hmap : (((applyCmds tickingCmds defaultLayout).getD
          defaultLayout).sections.map
        fun sec => (sec.id, sec.seats.map fun st => st.sectionId)) =
        [("section-1", ["section-1"]), ("section-2", []),
         ("section-100", ["section-101"])] := by decide
    have hpair : ("section-100", ["section-101"]) ∈
        (((applyCmds tickingCmds defaultLayout).getD
          defaultLayout).sections.map
        fun sec => (sec.id, sec.seats.map fun st => st.sectionId)) := by
      rw [hmap]; decide
    rw [List.mem_map] at hpair
    obtain ⟨sec, hsec, hpr⟩ := hpair
    have hid : sec.id = "section-100" := congrArg Prod.fst hpr
    have hsnd : (sec.seats.map fun st => st.sectionId) = ["section-101"] :=
      congrArg Prod.snd hpr
    have hseat : "section-101" ∈ sec.seats.map fun st => st.sectionId := by
      rw [hsnd]; decide
    rw [List.mem_map] at hseat
    obtain ⟨st, hst, hstid⟩ := hseat
    have := h sec hsec st hst
    rw [hstid, hid] at this
    exact absurd this (by decide)

/-- Witness for C3's amended theorem: the default layout satisfies
integrity, the two scripted commands (an `addSeat` and a
coherent-clock `duplicateSection`) run to completion, and the resulting
layout satisfies integrity. -/
theorem integrity_reachable_witness :
    integrity defaultLayout ∧
      (∀ cmd ∈ [Cmd.addSeat "section-1" 0 0 "XYZ",
        Cmd.duplicateSection "section-1" 100 dupOracle100], cmd.coherentClock) ∧
      ∃ l', applyCmds [Cmd.addSeat "section-1" 0 0 "XYZ",
          Cmd.duplicateSection "section-1" 100 dupOracle100] defaultLayout = some l' ∧
        integrity l' := by
  have h1 : integrity defaultLayout := by decide
  have hco : ∀ cmd ∈ [Cmd.addSeat "section-1" 0 0 "XYZ",
      Cmd.duplicateSection "section-1" 100 dupOracle100], cmd.coherentClock := by
    intro cmd hc
    rcases List.mem_cons.1 hc with rfl | hc
    · trivial
    · rcases List.mem_cons.1 hc with rfl | hc
      · intro i; rfl
      · exact absurd hc (List.not_mem_nil cmd)
  cases happ : applyCmds [Cmd.addSeat "section-1" 0 0 "XYZ",
      Cmd.duplicateSection "section-1" 100 dupOracle100] defaultLayout with
  | none => exact absurd happ (by decide)
  | some l' =>
    exact ⟨h1, hco, l', rfl,
      integrity_reachable _ defaultLayout l' hco h1 happ⟩

/-! ## Mutation of the previous snapshot -/

/-- The heap of the default layout's two section objects (addresses 0
and 1). -/
def heap0 : List Section := [sectionA, sectionB]

/-- A layout object referencing the two default sections. -/
def layoutRef0 : LayoutRef := { sectionAddrs := [0, 1], scale := 1 }

/-- C9: the claim states that no command mutates the previous `Layout`
snapshot in place.  But `handleDragEnd` copies only the layout object
(`{ ...layout }`) while keeping the same `sections` array, and then
writes `newLayout.sections[i].x/y` through that shared array: at the
heap level, after moving `"section-1"` of the default layout to world
position (0, 0), the new layout object holds the same section addresses
as the old one, and an observer reading the *old* snapshot now sees the
moved section — the previous snapshot was mutated in place.  The source
plainly intends a copy (it spreads the layout before mutating); the
shallow spread is the slip. -/
theorem heapDragEnd_mutates_previous_snapshot :
    (heapDragEnd heap0 layoutRef0 "section-1" 0 0).2.sectionAddrs =
      layoutRef0.sectionAddrs ∧
      readSnapshot (heapDragEnd heap0 layoutRef0 "section-1" 0 0).1 layoutRef0 ≠
        readSnapshot heap0 layoutRef0 := by
  refine ⟨rfl, ?_⟩
  intro hEq
  have hEq2 : ([some { sectionA with
        x := 0 - sectionA.width / 2,
        y := 0 - sectionA.height / 2 }, some sectionB] : List (Option Section)) =
      [some sectionA, some sectionB] := hEq
  simp only [List.cons.injEq, Option.some.injEq] at hEq2
  have hx := congrArg Section.x hEq2.1
  norm_num [sectionA] at hx
